import Mathlib

/-!
Verification development for the vsco-profile-backup-cli content
synchronization engine.  Each definition is a shallow embedding of a
function of the TypeScript source; theorems settle the specified
properties of those functions.  JavaScript strings are modelled as Lean
strings, JS numbers as Int or Nat (sizes, counts) or Rat (delays),
thrown errors as explicit error values, and the filesystem as explicit
state or event traces.
-/

set_option maxRecDepth 4000

/-- JS substring containment helper: membership of `pat` as a contiguous
substring of `s`, mirroring String.prototype.includes. -/
def substrAux (pat : List Char) : List Char → Bool
  | [] => pat.isEmpty
  | c :: rest => List.isPrefixOf pat (c :: rest) || substrAux pat rest

/-- JS String.prototype.includes(pat) on strings. -/
def containsSubstr (s pat : String) : Bool :=
  substrAux pat.data s.data

/-- ASCII lowercase of one character (the inputs the code lowercases are
ASCII, so this models String.prototype.toLowerCase faithfully here). -/
def charLower (c : Char) : Char :=
  if 'A' ≤ c && c ≤ 'Z' then Char.ofNat (c.toNat + 32) else c

/-- JS String.prototype.toLowerCase on the ASCII fragment. -/
def jsToLower (s : String) : String :=
  String.mk (s.data.map charLower)

/-- JS String.prototype.substring(0, n), structurally on the character
list. -/
def jsTake (s : String) (n : Nat) : String :=
  String.mk (s.data.take n)

/-- A thrown JavaScript error value, as the code inspects one: whether it is
an Error instance, its message, an optional numeric status property, and
whether it is a SyntaxError. -/
structure JsErr where
  isError : Bool
  message : String
  status : Option Int
  isSyntaxError : Bool
  deriving DecidableEq, Repr

/-- Decidable equality for Except values, used by the response model. -/
instance exceptDecEq {ε α : Type} [DecidableEq ε] [DecidableEq α] :
    DecidableEq (Except ε α) := fun x y =>
  match x, y with
  | Except.ok a, Except.ok b =>
    if h : a = b then isTrue (by rw [h])
    else isFalse (by intro hh; cases hh; exact h rfl)
  | Except.error a, Except.error b =>
    if h : a = b then isTrue (by rw [h])
    else isFalse (by intro hh; cases hh; exact h rfl)
  | Except.ok _, Except.error _ => isFalse (by intro hh; cases hh)
  | Except.error _, Except.ok _ => isFalse (by intro hh; cases hh)

/-! ## Cloudflare block detection (src/utils/cloudflare-block.ts) -/

/-- The known challenge markers, CLOUDFLARE_MARKERS of cloudflare-block.ts. -/
def CLOUDFLARE_MARKERS : List String :=
  ["Attention Required! | Cloudflare",
   "Sorry, you have been blocked",
   "__cf_bm=",
   "cf-ray"]

/-- MAX_BODY_BYTES of cloudflare-block.ts: only the first 8 KiB of a body is
scanned (the code truncates the decoded text; the model truncates
characters). -/
def MAX_BODY_BYTES : Nat := 8192

/-- The ResponseLike input of isCloudflareBlocked: status, the content-type
header (None when headers.get returns null), and the two optional
body-reading methods.  A method is modelled by what invoking it does:
`none` when the method is absent, `some (Except.error e)` when calling it
rejects, `some (Except.ok body)` when it yields the body text. -/
structure ResponseLike where
  status : Int
  contentType : Option String
  textResult : Option (Except JsErr String)
  bufResult : Option (Except JsErr String)
  deriving DecidableEq, Repr

/-- contentType check of cloudflare-block.ts line 54-57: the header value
(empty string when null) lowercased must contain text/html. -/
def isHtmlResponse (r : ResponseLike) : Bool :=
  containsSubstr (jsToLower (r.contentType.getD "")) "text/html"

/-- The body read the code performs (lines 65-79): text() when available,
else arrayBuffer() (decoded), else nothing. -/
def effectiveRead (r : ResponseLike) : Option (Except JsErr String) :=
  match r.textResult with
  | some x => some x
  | none => r.bufResult

/-- Marker scan of lines 82-89: lowercase the (already truncated) body text
and test each marker, lowercased, for containment. -/
def markerScan (bodyText : String) : Bool :=
  CLOUDFLARE_MARKERS.any (fun m => containsSubstr (jsToLower bodyText) (jsToLower m))

/-- isCloudflareBlocked of cloudflare-block.ts lines 47-94.  The try/catch
around the body read maps a rejecting read to false. -/
def isCloudflareBlocked (r : ResponseLike) : Bool :=
  if r.status = 403 then true
  else if !(isHtmlResponse r) then false
  else
    match effectiveRead r with
    | none => false
    | some (Except.error _) => false
    | some (Except.ok fullText) => markerScan (jsTake fullText MAX_BODY_BYTES)

/-- Whether the code reaches the body-reading section with a body-reading
method present, i.e. whether a body-reading method is invoked: this happens
exactly on the non-403 HTML path when text() or arrayBuffer() exists. -/
def scansBody (r : ResponseLike) : Bool :=
  r.status != 403 && isHtmlResponse r &&
    (r.textResult.isSome || r.bufResult.isSome)

/-! ## Shared retry policy (src/utils/retry.ts) -/

/-- The message test of isTransientError lines 29-34: an Error instance
whose lowercased message contains a timeout or connection-reset marker. -/
def hasTransientMarker (e : JsErr) : Bool :=
  e.isError &&
    (containsSubstr (jsToLower e.message) "timeout" ||
     containsSubstr (jsToLower e.message) "econnrefused" ||
     containsSubstr (jsToLower e.message) "econnreset")

/-- isTransientError of retry.ts lines 27-56, preserving the order of the
checks: message markers first, then the status ranges, then SyntaxError,
defaulting to transient. -/
def isTransientError (e : JsErr) : Bool :=
  if hasTransientMarker e then true
  else
    match e.status with
    | some s =>
      if (500 ≤ s && s < 600) || s = 429 then true
      else if 400 ≤ s && s < 500 then false
      else if e.isSyntaxError then false else true
    | none => if e.isSyntaxError then false else true

/-- calculateDelay of retry.ts lines 62-72 over exact rationals: the capped
exponential part plus the sampled jitter (Math.random() * jitterMaxMs is
passed in as the jitter value). -/
def calculateDelay (attempt : Nat) (baseDelayMs maxDelayMs jitter : ℚ) : ℚ :=
  min (baseDelayMs * 2 ^ attempt) maxDelayMs + jitter

/-- The capped exponential component of calculateDelay, before jitter. -/
def cappedDelay (attempt : Nat) (baseDelayMs maxDelayMs : ℚ) : ℚ :=
  min (baseDelayMs * 2 ^ attempt) maxDelayMs

/-- What one attempt of the retried operation does. -/
inductive AttemptOutcome (α : Type) where
  | ok (v : α)
  | err (e : JsErr)
  deriving DecidableEq, Repr

/-- How the retry wrapper resolves: a value after some attempts; an
immediate raise on a non-transient failure (RetryError with
isTransient=false, carrying the attempt count and last error); exhaustion
of maxAttempts (RetryError with isTransient=true, same payload); or the
unreachable fallthrough throw of line 148. -/
inductive RetryOutcome (α : Type) where
  | ok (v : α) (attempts : Nat)
  | failedFast (lastError : JsErr) (attempts : Nat)
  | exhausted (lastError : JsErr) (attempts : Nat)
  | loopExit
  deriving DecidableEq, Repr

/-- The for-loop of retry lines 98-145.  `outcomes i` is what the i-th call
of fn does; fuel counts the remaining loop iterations (the caller passes
maxAttempts, matching the loop bound). -/
def retryLoop {α : Type} (outcomes : Nat → AttemptOutcome α)
    (maxAttempts : Nat) : Nat → Nat → RetryOutcome α
  | 0, _ => RetryOutcome.loopExit
  | fuel + 1, attempt =>
    if attempt < maxAttempts then
      match outcomes attempt with
      | AttemptOutcome.ok v => RetryOutcome.ok v (attempt + 1)
      | AttemptOutcome.err e =>
        if isTransientError e then
          if attempt = maxAttempts - 1 then RetryOutcome.exhausted e maxAttempts
          else retryLoop outcomes maxAttempts fuel (attempt + 1)
        else RetryOutcome.failedFast e (attempt + 1)
    else RetryOutcome.loopExit

/-- retry of retry.ts lines 86-149, abstracted over what each attempt of fn
does; delays do not affect control flow. -/
def retryRun {α : Type} (outcomes : Nat → AttemptOutcome α)
    (maxAttempts : Nat) : RetryOutcome α :=
  retryLoop outcomes maxAttempts maxAttempts 0

/-! ## Highest-resolution selection (photos module, selectHighestResolution) -/

/-- An ImageCandidate: url with optional numeric width and height. -/
structure ImageCandidate where
  url : String
  width : Option Int
  height : Option Int
  deriving DecidableEq, Repr

/-- The comparator passed to sort in selectHighestResolution: width
descending when both present, a width-bearing entry before a width-less
one, then the same scheme on height, then URL length descending. -/
def cmpCandidate (a b : ImageCandidate) : Int :=
  match a.width, b.width with
  | some aw, some bw => bw - aw
  | some _, none => -1
  | none, some _ => 1
  | none, none =>
    match a.height, b.height with
    | some ah, some bh => bh - ah
    | some _, none => -1
    | none, some _ => 1
    | none, none => (b.url.length : Int) - (a.url.length : Int)

/-- Stable insertion of an element into a list sorted by a JS comparator:
the element goes before the first entry it compares ≤ 0 against, which is
how a stable sort places equal elements. -/
def orderedInsertCmp {α : Type} (cmp : α → α → Int) (a : α) : List α → List α
  | [] => [a]
  | b :: l => if cmp a b ≤ 0 then a :: b :: l else b :: orderedInsertCmp cmp a l

/-- Stable sort by a JS comparator (the comparator above is a total
preorder, so any stable sort — in particular Array.prototype.sort — yields
this ordering). -/
def sortCmp {α : Type} (cmp : α → α → Int) : List α → List α
  | [] => []
  | a :: l => orderedInsertCmp cmp a (sortCmp cmp l)

/-- selectHighestResolution of the photos module lines 311-337:
undefined on an empty list, else the head of the comparator-sorted copy. -/
def selectHighestResolution (candidates : List ImageCandidate) :
    Option ImageCandidate :=
  if candidates.isEmpty then none
  else (sortCmp cmpCandidate candidates).head?

/-- The element a stable sort places first: fold that keeps the earliest
element that compares ≤ 0 against the best of the rest. -/
def bestOf {α : Type} (cmp : α → α → Int) : List α → Option α
  | [] => none
  | a :: l =>
    match bestOf cmp l with
    | none => some a
    | some b => if cmp a b ≤ 0 then some a else some b

/-- The maximum width appearing among candidates that carry one. -/
def maxWidth : List ImageCandidate → Option Int
  | [] => none
  | c :: l =>
    match c.width, maxWidth l with
    | none, m => m
    | some w, none => some w
    | some w, some m => some (max w m)

/-! ## Manifest data model (src/manifest/types.ts) -/

/-- SCHEMA_VERSION of manifest/types.ts. -/
def SCHEMA_VERSION : String := "1.0.0"

/-- Profile of manifest/types.ts. -/
structure Profile where
  username : String
  profile_url : String
  last_backup_ts : String
  backup_version : String
  deriving DecidableEq, Repr

/-- Photo entity of manifest/types.ts. -/
structure Photo where
  id : String
  url_highres : String
  width : Option Int
  height : Option Int
  caption : Option String
  source_gallery_id : Option String
  downloaded_at : String
  deriving DecidableEq, Repr

/-- Gallery entity of manifest/types.ts. -/
structure Gallery where
  id : String
  name : String
  description : Option String
  cover_photo_url : Option String
  photo_ids : List String
  deriving DecidableEq, Repr

/-- BlogPost entity of manifest/types.ts. -/
structure BlogPost where
  id : String
  slug : String
  title : String
  content_html : String
  published_at : String
  deriving DecidableEq, Repr

/-- Run status of manifest/types.ts. -/
inductive RunStatus where
  | success
  | partial_
  | failed
  deriving DecidableEq, Repr

/-- robots_policy snapshot of manifest/types.ts. -/
structure RobotsPolicy where
  allowed : Bool
  reason : String
  fetch_success : Bool
  ignored : Bool
  deriving DecidableEq, Repr

/-- BackupRun record of manifest/types.ts. -/
structure BackupRun where
  run_id : String
  ts : String
  new_content_count : Nat
  missing_content_count : Nat
  invalid_content_count : Nat
  downloaded_items : List String
  status : RunStatus
  error_message : Option String
  robots_policy : Option RobotsPolicy
  deriving DecidableEq, Repr

/-- BackupContent of manifest/types.ts. -/
structure BackupContent where
  photos : List Photo
  galleries : List Gallery
  blog_posts : List BlogPost
  deriving DecidableEq, Repr

/-- BackupManifest of manifest/types.ts. -/
structure BackupManifest where
  schemaVersion : String
  profile : Profile
  content : BackupContent
  backup_runs : List BackupRun
  deriving DecidableEq, Repr

/-! ## Run recording (src/manifest/io.ts lines 141-191) -/

/-- The open run record built by recordBackupRunStart lines 145-153: zero
counts, empty downloaded list, initial status success. -/
def initialBackupRun (runId now : String) : BackupRun :=
  { run_id := runId
    ts := now
    new_content_count := 0
    missing_content_count := 0
    invalid_content_count := 0
    downloaded_items := []
    status := RunStatus.success
    error_message := none
    robots_policy := none }

/-- recordBackupRunStart of io.ts lines 141-159: generateRunId and the
current time are inputs (time plus randomness); the run record is pushed
onto backup_runs, profile.last_backup_ts is set to now, and the run id is
returned. -/
def recordBackupRunStart (m : BackupManifest) (runId now : String) :
    BackupManifest × String :=
  ({ m with
      backup_runs := m.backup_runs ++ [initialBackupRun runId now]
      profile := { m.profile with last_backup_ts := now } },
   runId)

/-- The per-run counts argument of recordBackupRunFinish. -/
structure RunCounts where
  new_content_count : Nat
  missing_content_count : Nat
  invalid_content_count : Nat
  downloaded_items : List String
  deriving DecidableEq, Repr

/-- In-place update of the first run matching the id, as mutating the
result of Array.prototype.find does. -/
def updateFirstRun (p : BackupRun → Bool) (f : BackupRun → BackupRun) :
    List BackupRun → List BackupRun
  | [] => []
  | r :: rest => if p r then f r :: rest else r :: updateFirstRun p f rest

/-- The field fill-in of recordBackupRunFinish lines 182-190; the error
message is only set when truthy, i.e. nonempty. -/
def fillRunFinish (counts : RunCounts) (status : RunStatus)
    (errorMessage : Option String) (r : BackupRun) : BackupRun :=
  { r with
      new_content_count := counts.new_content_count
      missing_content_count := counts.missing_content_count
      invalid_content_count := counts.invalid_content_count
      downloaded_items := counts.downloaded_items
      status := status
      error_message :=
        match errorMessage with
        | some msg => if msg = "" then r.error_message else some msg
        | none => r.error_message }

/-- recordBackupRunFinish of io.ts lines 164-191: locate the first run with
the id (error when absent) and fill in counts, status and the optional
error message. -/
def recordBackupRunFinish (m : BackupManifest) (runId : String)
    (counts : RunCounts) (status : RunStatus)
    (errorMessage : Option String) : Except JsErr BackupManifest :=
  if m.backup_runs.any (fun r => r.run_id = runId) then
    Except.ok
      { m with
          backup_runs :=
            updateFirstRun (fun r => r.run_id = runId)
              (fillRunFinish counts status errorMessage) m.backup_runs }
  else
    Except.error { isError := true, message := "Run not found in manifest",
                   status := none, isSyntaxError := false }

/-! ## Backup orchestration content update (core module, orchestrateBackup) -/

/-- Discovery Photo of vsco/types.ts. -/
structure DiscoveryPhoto where
  id : String
  permalink : Option String
  imageUrl : Option String
  thumbnailUrl : Option String
  uploadDate : Option String
  caption : Option String
  deriving DecidableEq, Repr

/-- Discovery Gallery of vsco/types.ts. -/
structure DiscoveryGallery where
  id : String
  name : Option String
  permalink : Option String
  thumbnailUrl : Option String
  deriving DecidableEq, Repr

/-- Discovery BlogPost of vsco/types.ts. -/
structure DiscoveryBlogPost where
  id : String
  title : Option String
  permalink : Option String
  publishDate : Option String
  excerpt : Option String
  deriving DecidableEq, Repr

/-- The JS expression `a || dflt` on an optional string: the default is used
when the value is undefined or empty (falsy). -/
def jsOrString (a : Option String) (dflt : String) : String :=
  match a with
  | some s => if s = "" then dflt else s
  | none => dflt

/-- mapPhoto of the orchestrator: url_highres from imageUrl (empty when
falsy), caption carried over, downloaded_at stamped now. -/
def mapPhoto (now : String) (p : DiscoveryPhoto) : Photo :=
  { id := p.id
    url_highres := jsOrString p.imageUrl ""
    width := none
    height := none
    caption := p.caption
    source_gallery_id := none
    downloaded_at := now }

/-- mapGallery of the orchestrator: name defaulted, photo_ids reset to the
empty list. -/
def mapGallery (g : DiscoveryGallery) : Gallery :=
  { id := g.id
    name := jsOrString g.name "Untitled Gallery"
    description := none
    cover_photo_url := none
    photo_ids := [] }

/-- mapBlogPost of the orchestrator: slug is the id, title defaulted,
content_html from the excerpt, published_at defaulted to now. -/
def mapBlogPost (now : String) (b : DiscoveryBlogPost) : BlogPost :=
  { id := b.id
    slug := b.id
    title := jsOrString b.title "Untitled Post"
    content_html := jsOrString b.excerpt ""
    published_at := jsOrString b.publishDate now }

/-- The manifest content mutation of orchestrateBackup on its success path
(the for-loop pushing the new photos and the two assignments replacing
galleries and blog_posts with the freshly mapped discovery lists). -/
def applyBackupContentUpdate (m : BackupManifest) (newItems : List Photo)
    (galleries : List DiscoveryGallery)
    (blogPosts : List DiscoveryBlogPost) (now : String) : BackupManifest :=
  { m with
      content :=
        { photos := m.content.photos ++ newItems
          galleries := galleries.map mapGallery
          blog_posts := blogPosts.map (mapBlogPost now) } }

/-! ## Paths and filenames (src/utils/paths.ts) -/

/-- A character kept by the sanitizer regex of generateMediaFilename
(alphanumeric or hyphen, case-insensitive). -/
def keepFilenameChar (c : Char) : Bool :=
  ('a' ≤ c && c ≤ 'z') || ('A' ≤ c && c ≤ 'Z') || ('0' ≤ c && c ≤ '9') || c = '-'

/-- The extension map of generateMediaFilename lines 228-241, defaulting
to bin. -/
def extensionFor (contentType : String) : String :=
  if contentType = "image/jpeg" then "jpg"
  else if contentType = "image/jpg" then "jpg"
  else if contentType = "image/png" then "png"
  else if contentType = "image/gif" then "gif"
  else if contentType = "image/webp" then "webp"
  else if contentType = "video/mp4" then "mp4"
  else if contentType = "video/quicktime" then "mov"
  else if contentType = "video/webm" then "webm"
  else if contentType = "application/octet-stream" then "bin"
  else "bin"

/-- generateMediaFilename of paths.ts lines 226-252: sanitize the id,
truncate it to fit, and append the mapped extension.  The TS default
parameter value image/jpeg applies when no content type is passed. -/
def generateMediaFilename (mediaId : String) (contentType : Option String) :
    String :=
  let ct := contentType.getD "image/jpeg"
  let ext := extensionFor ct
  let safeId := String.mk (mediaId.data.filter keepFilenameChar)
  let maxIdLength := 240 - ext.length - 1
  let truncatedId := String.mk (safeId.data.take maxIdLength)
  truncatedId ++ "." ++ ext

/-- Node path.join on already clean segments, as used by the path helpers. -/
def joinPath (a b : String) : String := a ++ "/" ++ b

/-- getMediaPath of paths.ts lines 53-55. -/
def getMediaPath (backupRoot filename : String) : String :=
  joinPath (joinPath backupRoot ".vsco-backup/media") filename

/-! ## Incremental diff engine (src/core/incremental.ts) -/

/-- What fs.stat finds at a path: no file (stat rejects with code ENOENT),
a file whose stat resolves with its size, or a file of a given on-disk
size whose stat rejects with a non-ENOENT error (permission denied and
the like). -/
inductive FileState where
  | absent
  | present (size : Nat)
  | statFailed (size : Nat)
  deriving DecidableEq, Repr

/-- IncrementalDetectionOptions of incremental.ts, with the optional maps
modelled as partial functions. -/
structure IncOptions where
  expectedSizesById : String → Option Nat
  contentTypeById : String → Option String
  filenameById : String → Option String

/-- resolveMediaPath of incremental.ts lines 17-26. -/
def resolveMediaPath (backupRoot mediaId : String) (options : IncOptions) :
    String :=
  let filename :=
    (options.filenameById mediaId).getD
      (generateMediaFilename mediaId (options.contentTypeById mediaId))
  getMediaPath backupRoot filename

/-- The three classes classifyManifestPhoto can return. -/
inductive IncClass where
  | missing
  | invalid
  | ok
  deriving DecidableEq, Repr

/-- classifyManifestPhoto of incremental.ts lines 28-55 over an explicit
filesystem (a map from path to FileState): a stat rejection with ENOENT
yields missing, any other stat rejection falls into the catch of lines
48-54 and yields invalid, and a resolved stat yields invalid on a
zero-byte file or a size differing from a known positive expected size,
otherwise ok. -/
def classifyManifestPhoto (fs : String → FileState) (backupRoot : String)
    (photo : Photo) (options : IncOptions) : IncClass :=
  let expectedSize := options.expectedSizesById photo.id
  let localPath := resolveMediaPath backupRoot photo.id options
  match fs localPath with
  | FileState.absent => IncClass.missing
  | FileState.statFailed _ => IncClass.invalid
  | FileState.present size =>
    if size = 0 then IncClass.invalid
    else
      match expectedSize with
      | some es => if 0 < es && size ≠ es then IncClass.invalid else IncClass.ok
      | none => IncClass.ok

/-- IncrementalDetectionResult of incremental.ts. -/
structure IncResult where
  newItems : List Photo
  missingItems : List Photo
  invalidItems : List Photo
  deriving DecidableEq, Repr

/-- detectIncrementalPhotos of incremental.ts lines 57-86: discovered
photos whose id is not among the manifest photo ids are new; manifest
photos are classified and collected into the missing and invalid lists in
order. -/
def detectIncrementalPhotos (fs : String → FileState) (backupRoot : String)
    (discoveredPhotos : List Photo) (manifest : BackupManifest)
    (options : IncOptions) : IncResult :=
  let manifestPhotos := manifest.content.photos
  let manifestIds := manifestPhotos.map Photo.id
  { newItems := discoveredPhotos.filter (fun p => !(manifestIds.contains p.id))
    missingItems := manifestPhotos.filter
      (fun p => classifyManifestPhoto fs backupRoot p options = IncClass.missing)
    invalidItems := manifestPhotos.filter
      (fun p => classifyManifestPhoto fs backupRoot p options = IncClass.invalid) }

/-! ## Manifest loading (src/manifest/io.ts lines 53-104) and schema
validation (src/manifest/types.ts isValidBackupManifest) -/

/-- A parsed JSON value as JavaScript sees it. -/
inductive JsValue where
  | null
  | bool (b : Bool)
  | num (n : Int)
  | str (s : String)
  | arr (elems : List JsValue)
  | obj (fields : List (String × JsValue))

/-- JS property access on a value: a field of an object, undefined (none)
otherwise. -/
def jsGet (v : JsValue) (key : String) : Option JsValue :=
  match v with
  | JsValue.obj fields => (fields.find? (fun f => f.1 = key)).map Prod.snd
  | _ => none

/-- JS truthiness of a value. -/
def jsTruthy (v : JsValue) : Bool :=
  match v with
  | JsValue.null => false
  | JsValue.bool b => b
  | JsValue.num n => n ≠ 0
  | JsValue.str s => s ≠ ""
  | JsValue.arr _ => true
  | JsValue.obj _ => true

/-- Whether typeof yields object (null, arrays and objects). -/
def jsTypeofObject (v : JsValue) : Bool :=
  match v with
  | JsValue.null => true
  | JsValue.arr _ => true
  | JsValue.obj _ => true
  | _ => false

/-- Whether a possibly-undefined value is a string. -/
def jsIsStr (v : Option JsValue) : Bool :=
  match v with
  | some (JsValue.str _) => true
  | _ => false

/-- Array.isArray on a possibly-undefined value. -/
def jsIsArray (v : Option JsValue) : Bool :=
  match v with
  | some (JsValue.arr _) => true
  | _ => false

/-- The truthy-object test `!x || typeof x !== 'object'` (negated) applied
to a possibly-undefined property. -/
def jsTruthyObject (v : Option JsValue) : Bool :=
  match v with
  | some p => jsTruthy p && jsTypeofObject p
  | none => false

/-- isValidBackupManifest of manifest/types.ts lines 327-362, check for
check in source order. -/
def isValidBackupManifest (v : JsValue) : Bool :=
  if !(jsTruthy v && jsTypeofObject v) then false
  else if !(jsIsStr (jsGet v "schemaVersion")) then false
  else if !(jsTruthyObject (jsGet v "profile")) then false
  else
    match jsGet v "profile" with
    | none => false
    | some profile =>
      if !(jsIsStr (jsGet profile "username") &&
           jsIsStr (jsGet profile "profile_url") &&
           jsIsStr (jsGet profile "last_backup_ts") &&
           jsIsStr (jsGet profile "backup_version")) then false
      else if !(jsTruthyObject (jsGet v "content")) then false
      else
        match jsGet v "content" with
        | none => false
        | some content =>
          if !(jsIsArray (jsGet content "photos") &&
               jsIsArray (jsGet content "galleries") &&
               jsIsArray (jsGet content "blog_posts")) then false
          else jsIsArray (jsGet v "backup_runs")

/-- initializeManifest of io.ts lines 84-104, as the JSON value it
produces: fresh profile stamped now, empty content arrays, empty run
history, current schema version. -/
def initializeManifest (username profileUrl now : String) : JsValue :=
  JsValue.obj
    [("schemaVersion", JsValue.str SCHEMA_VERSION),
     ("profile", JsValue.obj
       [("username", JsValue.str username),
        ("profile_url", JsValue.str profileUrl),
        ("last_backup_ts", JsValue.str now),
        ("backup_version", JsValue.str SCHEMA_VERSION)]),
     ("content", JsValue.obj
       [("photos", JsValue.arr []),
        ("galleries", JsValue.arr []),
        ("blog_posts", JsValue.arr [])]),
     ("backup_runs", JsValue.arr [])]

/-- What the manifest file holds: nothing, text JSON.parse rejects (with
the SyntaxError message), or a parsed JSON value. -/
inductive ManifestFile where
  | absent
  | unparseable (parseErrMsg : String)
  | json (v : JsValue)

/-- The try-block of loadManifest lines 60-68: readFile (a missing file
rejects with an ENOENT message), JSON.parse, then schema validation
(throwing Invalid manifest structure on failure). -/
def tryLoadManifest (file : ManifestFile) : Except JsErr JsValue :=
  match file with
  | ManifestFile.absent =>
    Except.error { isError := true,
                   message := "ENOENT: no such file or directory",
                   status := none, isSyntaxError := false }
  | ManifestFile.unparseable msg =>
    Except.error { isError := true, message := msg,
                   status := none, isSyntaxError := true }
  | ManifestFile.json v =>
    if isValidBackupManifest v then Except.ok v
    else Except.error { isError := true,
                        message := "Invalid manifest structure",
                        status := none, isSyntaxError := false }

/-- loadManifest of io.ts lines 53-79: the catch initializes a fresh
manifest when the error is an Error whose message contains ENOENT or
Invalid manifest, and rethrows anything else. -/
def loadManifest (file : ManifestFile) (username profileUrl now : String) :
    Except JsErr JsValue :=
  match tryLoadManifest file with
  | Except.ok v => Except.ok v
  | Except.error e =>
    if e.isError &&
        (containsSubstr e.message "ENOENT" ||
         containsSubstr e.message "Invalid manifest") then
      Except.ok (initializeManifest username profileUrl now)
    else Except.error e

/-! ## Scroll-discovery loop (vsco discovery module, discoverProfile
lines 112-157) -/

/-- The resolved discovery options the loop consults. -/
structure ScrollOpts where
  noNewContentThreshold : Nat
  maxScrollCycles : Nat
  maxItems : Option Nat
  deriving DecidableEq, Repr

/-- The optional inputs of DiscoveryOptions relevant to the loop. -/
structure ScrollOptsIn where
  noNewContentThreshold : Option Nat
  maxScrollCycles : Option Nat
  maxItems : Option Nat
  deriving DecidableEq, Repr

/-- The ?? defaulting of discoverProfile lines 23-30: threshold 3, cap 50,
maxItems left optional. -/
def resolveScrollOpts (o : ScrollOptsIn) : ScrollOpts :=
  { noNewContentThreshold := o.noNewContentThreshold.getD 3
    maxScrollCycles := o.maxScrollCycles.getD 50
    maxItems := o.maxItems }

/-- ScrollState of vsco/types.ts; the JS Set is a duplicate-free list in
insertion order. -/
structure ScrollState where
  currentCycle : Nat
  totalIds : List String
  cyclesWithoutNewContent : Nat
  lastIdCount : Nat
  deriving DecidableEq, Repr

/-- The initial scroll state of lines 112-117. -/
def initScrollState : ScrollState :=
  { currentCycle := 0, totalIds := [], cyclesWithoutNewContent := 0,
    lastIdCount := 0 }

/-- Set.prototype.add over a batch of ids: append each id not yet present. -/
def addIds (acc ids : List String) : List String :=
  ids.foldl (fun a i => if a.contains i then a else a ++ [i]) acc

/-- The while condition of line 120-124. -/
def scrollCond (o : ScrollOpts) (s : ScrollState) : Bool :=
  s.currentCycle < o.maxScrollCycles &&
  s.cyclesWithoutNewContent < o.noNewContentThreshold &&
  (match o.maxItems with
   | none => true
   | some m => s.totalIds.length < m)

/-- One loop body of lines 125-146: bump the cycle counter, union in the
ids this cycle contributed (extract is indexed by the pre-increment cycle
number), and update the no-new-content streak. -/
def scrollStep (extract : Nat → List String) (s : ScrollState) : ScrollState :=
  let total := addIds s.totalIds (extract s.currentCycle)
  let previousIdCount := s.lastIdCount
  if total.length = previousIdCount then
    { currentCycle := s.currentCycle + 1, totalIds := total,
      cyclesWithoutNewContent := s.cyclesWithoutNewContent + 1,
      lastIdCount := total.length }
  else
    { currentCycle := s.currentCycle + 1, totalIds := total,
      cyclesWithoutNewContent := 0, lastIdCount := total.length }

/-- The state after n unconditional loop bodies from the initial state. -/
def scrollIterate (extract : Nat → List String) : Nat → ScrollState
  | 0 => initScrollState
  | n + 1 => scrollStep extract (scrollIterate extract n)

/-- The while loop itself, with explicit fuel; each body increments
currentCycle, and the condition bounds currentCycle by maxScrollCycles, so
maxScrollCycles fuel is always enough. -/
def scrollLoop (o : ScrollOpts) (extract : Nat → List String) :
    Nat → ScrollState → ScrollState
  | 0, s => s
  | fuel + 1, s =>
    if scrollCond o s then scrollLoop o extract fuel (scrollStep extract s)
    else s

/-- The scroll-discovery phase of discoverProfile: run the loop from the
initial state. -/
def discoverScrollState (o : ScrollOpts) (extract : Nat → List String) :
    ScrollState :=
  scrollLoop o extract o.maxScrollCycles initScrollState

/-! ## Download persistence traces (src/download/downloader.ts lines
146-166 and src/download/playwright-transport.ts lines 151-167) -/

/-- A filesystem effect the download success paths perform. -/
inductive FsEvent where
  | mkdirRec (dir : String)
  | write (path : String) (data : String)
  | rename (src : String) (dst : String)
  deriving DecidableEq, Repr

/-- Node path.dirname on the model paths (everything before the last
slash; a dot when there is none). -/
def dirnameOf (p : String) : String :=
  if p.data.contains '/' then
    String.mk (((p.data.reverse.dropWhile (fun c => c ≠ '/')).drop 1).reverse)
  else "."

/-- The filesystem effects the primary transport downloadFile performs for
a fetched body on its success path (downloader.ts lines 150-154): ensure
the directory, then write the buffer directly at the final path. -/
def downloadFileWriteTrace (localPath body : String) : List FsEvent :=
  [FsEvent.mkdirRec (dirnameOf localPath),
   FsEvent.write localPath body]

/-- The filesystem effects downloadWithPlaywright performs for a captured
body on its success path (playwright-transport.ts lines 151-156): ensure
the directory, write the buffer at the tmp sibling, rename into place. -/
def playwrightWriteTrace (filepath body : String) : List FsEvent :=
  [FsEvent.mkdirRec (dirnameOf filepath),
   FsEvent.write (filepath ++ ".tmp") body,
   FsEvent.rename (filepath ++ ".tmp") filepath]

/-- Atomic persistence of a body at a target path, as the specification
describes it: the body is never written directly at the target, it is
written at the tmp sibling, and the tmp sibling is renamed onto the
target. -/
def writesAtomically (events : List FsEvent) (target : String) : Bool :=
  (events.all fun e =>
    match e with
    | FsEvent.write p _ => p ≠ target
    | _ => true) &&
  (events.any fun e =>
    match e with
    | FsEvent.write p _ => p = target ++ ".tmp"
    | _ => false) &&
  (events.any fun e =>
    match e with
    | FsEvent.rename src dst => src = target ++ ".tmp" && dst = target
    | _ => false)

/-! ## Theorems -/

/-- Appending the tmp suffix changes the path (the lengths differ). -/
theorem tmpPath_ne (path : String) : path ++ ".tmp" ≠ path := by
  intro h
  have hlen := congrArg String.length h
  rw [String.length_append] at hlen
  have h4 : (".tmp" : String).length = 4 := rfl
  rw [h4] at hlen
  omega

/-- C1 counterexample: at a concrete queued item the primary HTTP
transport writes the fetched body directly at the final target path and
performs no rename, so the download-pipeline write is not atomic for the
primary transport, contradicting the claim that both transports write to
a tmp sibling and rename into place. -/
theorem primary_transport_write_not_atomic_cex :
  downloadFileWriteTrace "/r/.vsco-backup/media/a.jpg" "BODY" =
    [FsEvent.mkdirRec "/r/.vsco-backup/media",
     FsEvent.write "/r/.vsco-backup/media/a.jpg" "BODY"] ∧
  writesAtomically (downloadFileWriteTrace "/r/.vsco-backup/media/a.jpg" "BODY")
    "/r/.vsco-backup/media/a.jpg" = false := by
  constructor
  · rfl
  · rfl

/-- C1 (amended): on every successful download, the session-backed
Playwright transport persists atomically (body written only at the tmp
sibling, then renamed onto the target, never written directly at the
target), while the primary HTTP transport writes the fully buffered body
directly at the target path, with no temporary file and no rename. -/
theorem transport_write_traces_amended (path body : String) :
  playwrightWriteTrace path body =
    [FsEvent.mkdirRec (dirnameOf path),
     FsEvent.write (path ++ ".tmp") body,
     FsEvent.rename (path ++ ".tmp") path] ∧
  writesAtomically (playwrightWriteTrace path body) path = true ∧
  downloadFileWriteTrace path body =
    [FsEvent.mkdirRec (dirnameOf path), FsEvent.write path body] ∧
  ((downloadFileWriteTrace path body).any fun e =>
    match e with
    | FsEvent.rename _ _ => true
    | _ => false) = false := by
  refine ⟨rfl, ?_, rfl, rfl⟩
  simp only [writesAtomically, playwrightWriteTrace, List.all_cons, List.all_nil,
    List.any_cons, List.any_nil, Bool.and_true, Bool.or_false, Bool.false_or]
  have h := tmpPath_ne path
  simp [h]

/-- C7 counterexample: at a concrete manifest, recording a run start
changes the Profile (last_backup_ts becomes the run-start timestamp), so
the claim that every Profile field is left unchanged is false. -/
theorem record_run_start_mutates_profile_cex :
  (recordBackupRunStart
      { schemaVersion := "1.0.0"
        profile := { username := "u", profile_url := "https://vsco.co/u",
                     last_backup_ts := "2020-01-01T00:00:00.000Z",
                     backup_version := "1.0.0" }
        content := { photos := [], galleries := [], blog_posts := [] }
        backup_runs := [] } "run-1" "2021-06-01T00:00:00.000Z").1.profile ≠
    { username := "u", profile_url := "https://vsco.co/u",
      last_backup_ts := "2020-01-01T00:00:00.000Z",
      backup_version := "1.0.0" } := by
  decide

/-- C7 (amended): recordBackupRunStart appends exactly one open run record
(zero counts, empty downloaded list, initial success status), returns its
id, leaves content, run-independent Profile fields and the schema version
unchanged, and updates exactly one Profile field: last_backup_ts becomes
the run-start timestamp. -/
theorem record_run_start_amended (m : BackupManifest) (runId now : String) :
  (recordBackupRunStart m runId now).1.backup_runs =
    m.backup_runs ++ [initialBackupRun runId now] ∧
  (recordBackupRunStart m runId now).2 = runId ∧
  (recordBackupRunStart m runId now).1.profile.username = m.profile.username ∧
  (recordBackupRunStart m runId now).1.profile.profile_url = m.profile.profile_url ∧
  (recordBackupRunStart m runId now).1.profile.backup_version = m.profile.backup_version ∧
  (recordBackupRunStart m runId now).1.profile.last_backup_ts = now ∧
  (recordBackupRunStart m runId now).1.content = m.content ∧
  (recordBackupRunStart m runId now).1.schemaVersion = m.schemaVersion :=
  ⟨rfl, rfl, rfl, rfl, rfl, rfl, rfl, rfl⟩

/-- A manifest holding one gallery with one member and one blog post, as a
prior run would have recorded. -/
def priorManifestC2 : BackupManifest :=
  { schemaVersion := "1.0.0"
    profile := { username := "u", profile_url := "https://vsco.co/u",
                 last_backup_ts := "2020-01-01T00:00:00.000Z",
                 backup_version := "1.0.0" }
    content :=
      { photos := []
        galleries := [{ id := "g1", name := "Summer", description := none,
                        cover_photo_url := none, photo_ids := ["p1"] }]
        blog_posts := [{ id := "b1", slug := "b1", title := "T",
                         content_html := "x", published_at := "2020" }] }
    backup_runs := [] }

/-- C2: the orchestrator content update is not append-only.  At a concrete
manifest holding a gallery and a blog post, a successful run whose
discovery returns no galleries and no blog posts leaves both lists empty
(the records are deleted), and a run that rediscovers the same gallery
resets its membership from one photo id to the empty list. -/
theorem orchestrate_replaces_galleries_and_posts :
  (applyBackupContentUpdate priorManifestC2 [] [] [] "2021").content.galleries = [] ∧
  (applyBackupContentUpdate priorManifestC2 [] [] [] "2021").content.blog_posts = [] ∧
  priorManifestC2.content.galleries ≠ [] ∧
  priorManifestC2.content.blog_posts ≠ [] ∧
  (applyBackupContentUpdate priorManifestC2 []
      [{ id := "g1", name := some "Summer", permalink := none,
         thumbnailUrl := none }] [] "2021").content.galleries =
    [{ id := "g1", name := "Summer", description := none,
       cover_photo_url := none, photo_ids := [] }] ∧
  (priorManifestC2.content.galleries.map Gallery.photo_ids) = [["p1"]] := by
  refine ⟨rfl, rfl, ?_, ?_, ?_, rfl⟩
  · decide
  · decide
  · decide

/-- C4: block detection.  A 403 is blocked regardless of content-type; a
200 HTML response whose first 8 KiB of body (as obtained by the available
body read) contains a challenge marker is blocked; a 200 HTML response
without a marker in its first 8 KiB is not blocked; a non-403 non-HTML
response is not blocked and its body-reading methods are never invoked. -/
theorem cloudflare_block_detection_rules (r : ResponseLike) (body : String) :
  (r.status = 403 → isCloudflareBlocked r = true) ∧
  (r.status = 200 → isHtmlResponse r = true →
     effectiveRead r = some (Except.ok body) →
     markerScan (jsTake body MAX_BODY_BYTES) = true →
     isCloudflareBlocked r = true) ∧
  (r.status = 200 → isHtmlResponse r = true →
     effectiveRead r = some (Except.ok body) →
     markerScan (jsTake body MAX_BODY_BYTES) = false →
     isCloudflareBlocked r = false) ∧
  (r.status ≠ 403 → isHtmlResponse r = false →
     isCloudflareBlocked r = false ∧ scansBody r = false) := by
  refine ⟨?_, ?_, ?_, ?_⟩
  · intro h
    simp [isCloudflareBlocked, h]
  · intro hs hh hr hm
    have h403 : r.status ≠ 403 := by rw [hs]; norm_num
    simp [isCloudflareBlocked, h403, hh, hr, hm]
  · intro hs hh hr hm
    have h403 : r.status ≠ 403 := by rw [hs]; norm_num
    simp [isCloudflareBlocked, h403, hh, hr, hm]
  · intro h403 hh
    constructor
    · simp [isCloudflareBlocked, h403, hh]
    · simp [scansBody, hh]

/-- C4 witness: the four rules applied at concrete responses. -/
theorem cloudflare_block_detection_rules_witness :
  isCloudflareBlocked { status := 403, contentType := some "image/jpeg",
                        textResult := none, bufResult := none } = true ∧
  isCloudflareBlocked { status := 200, contentType := some "text/html",
                        textResult := some (Except.ok "__cf_bm=x"),
                        bufResult := none } = true ∧
  isCloudflareBlocked { status := 200, contentType := some "text/html",
                        textResult := some (Except.ok "hello"),
                        bufResult := none } = false ∧
  (isCloudflareBlocked { status := 200, contentType := some "image/jpeg",
                         textResult := some (Except.ok "__cf_bm=x"),
                         bufResult := none } = false ∧
   scansBody { status := 200, contentType := some "image/jpeg",
               textResult := some (Except.ok "__cf_bm=x"),
               bufResult := none } = false) :=
  ⟨(cloudflare_block_detection_rules _ "").1 rfl,
   (cloudflare_block_detection_rules _ "__cf_bm=x").2.1 rfl (by decide) rfl
     (by decide),
   (cloudflare_block_detection_rules _ "hello").2.2.1 rfl (by decide) rfl
     (by decide),
   (cloudflare_block_detection_rules _ "").2.2.2 (by decide) (by decide)⟩

/-- C10: isCloudflareBlocked is total at its interface: it yields a
boolean for every response-like input; when the block-scan path is taken
(non-403) a failing body read or an absent body-reading method resolves to
not blocked; and on non-HTML responses the body-reading methods are never
invoked. -/
theorem cloudflare_block_total_and_lazy (r : ResponseLike) :
  (isCloudflareBlocked r = true ∨ isCloudflareBlocked r = false) ∧
  (r.status ≠ 403 → effectiveRead r = none → isCloudflareBlocked r = false) ∧
  (∀ e, r.status ≠ 403 → effectiveRead r = some (Except.error e) →
     isCloudflareBlocked r = false) ∧
  (isHtmlResponse r = false → scansBody r = false) := by
  refine ⟨?_, ?_, ?_, ?_⟩
  · cases h : isCloudflareBlocked r
    · right; rfl
    · left; rfl
  · intro h403 hr
    by_cases hh : isHtmlResponse r
    · simp [isCloudflareBlocked, h403, hh, hr]
    · simp [isCloudflareBlocked, h403, hh]
  · intro e h403 hr
    by_cases hh : isHtmlResponse r
    · simp [isCloudflareBlocked, h403, hh, hr]
    · simp [isCloudflareBlocked, h403, hh]
  · intro hh
    simp [scansBody, hh]

/-- C10 witness: the failure-tolerance rules applied at concrete
responses. -/
theorem cloudflare_block_total_and_lazy_witness :
  isCloudflareBlocked { status := 200, contentType := some "text/html",
                        textResult := none, bufResult := none } = false ∧
  isCloudflareBlocked { status := 200, contentType := some "text/html",
                        textResult := some (Except.error
                          { isError := true, message := "stream error",
                            status := none, isSyntaxError := false }),
                        bufResult := none } = false ∧
  scansBody { status := 200, contentType := some "application/json",
              textResult := some (Except.ok "x"), bufResult := none } = false :=
  ⟨(cloudflare_block_total_and_lazy _).2.1 (by decide) rfl,
   (cloudflare_block_total_and_lazy _).2.2.1
     { isError := true, message := "stream error", status := none,
       isSyntaxError := false } (by decide) rfl,
   (cloudflare_block_total_and_lazy _).2.2.2 (by decide)⟩

/-- C8: loading the manifest never throws when the file is absent or when
the parsed content fails schema validation: both cases yield the freshly
synthesized manifest, which carries the current schema version, an empty
content container and an empty run history (and itself validates). -/
theorem load_manifest_missing_or_invalid_yields_fresh
    (username profileUrl now : String) :
  loadManifest ManifestFile.absent username profileUrl now =
    Except.ok (initializeManifest username profileUrl now) ∧
  (∀ v, isValidBackupManifest v = false →
     loadManifest (ManifestFile.json v) username profileUrl now =
       Except.ok (initializeManifest username profileUrl now)) ∧
  jsGet (initializeManifest username profileUrl now) "schemaVersion" =
    some (JsValue.str SCHEMA_VERSION) ∧
  jsGet (initializeManifest username profileUrl now) "content" =
    some (JsValue.obj
      [("photos", JsValue.arr []), ("galleries", JsValue.arr []),
       ("blog_posts", JsValue.arr [])]) ∧
  jsGet (initializeManifest username profileUrl now) "backup_runs" =
    some (JsValue.arr []) ∧
  isValidBackupManifest (initializeManifest username profileUrl now) = true := by
  refine ⟨rfl, ?_, rfl, rfl, rfl, rfl⟩
  intro v hv
  simp only [loadManifest, tryLoadManifest, hv]
  rfl

/-- C8 witness: a missing file and a concrete schema-invalid value both
load as the fresh manifest. -/
theorem load_manifest_missing_or_invalid_yields_fresh_witness :
  loadManifest ManifestFile.absent "alice" "https://vsco.co/alice" "t0" =
    Except.ok (initializeManifest "alice" "https://vsco.co/alice" "t0") ∧
  loadManifest (ManifestFile.json (JsValue.obj [("schemaVersion", JsValue.num 1)]))
      "alice" "https://vsco.co/alice" "t0" =
    Except.ok (initializeManifest "alice" "https://vsco.co/alice" "t0") :=
  ⟨(load_manifest_missing_or_invalid_yields_fresh "alice"
      "https://vsco.co/alice" "t0").1,
   (load_manifest_missing_or_invalid_yields_fresh "alice"
      "https://vsco.co/alice" "t0").2.1
     (JsValue.obj [("schemaVersion", JsValue.num 1)]) rfl⟩

/-- The classifier yields missing exactly on ENOENT, i.e. when the mapped
local file is absent. -/
theorem classify_missing_iff (fs : String → FileState) (backupRoot : String)
    (p : Photo) (options : IncOptions) :
  classifyManifestPhoto fs backupRoot p options = IncClass.missing ↔
    fs (resolveMediaPath backupRoot p.id options) = FileState.absent := by
  unfold classifyManifestPhoto
  rcases hfs : fs (resolveMediaPath backupRoot p.id options) with _ | n | n <;>
    rcases hes : options.expectedSizesById p.id with _ | es <;>
      simp only [hfs, hes] <;> (try simp) <;>
        (try (split_ifs <;> simp_all)) <;> (try omega)

/-- The classifier yields invalid exactly on a non-ENOENT stat failure or
on an existing file of size zero or of a size differing from a known
positive expected size. -/
theorem classify_invalid_iff (fs : String → FileState) (backupRoot : String)
    (p : Photo) (options : IncOptions) :
  classifyManifestPhoto fs backupRoot p options = IncClass.invalid ↔
    ((∃ n, fs (resolveMediaPath backupRoot p.id options) =
        FileState.statFailed n) ∨
     (∃ n, fs (resolveMediaPath backupRoot p.id options) =
        FileState.present n ∧
       (n = 0 ∨ ∃ es, options.expectedSizesById p.id = some es ∧
         0 < es ∧ n ≠ es))) := by
  unfold classifyManifestPhoto
  rcases hfs : fs (resolveMediaPath backupRoot p.id options) with _ | n | n <;>
    rcases hes : options.expectedSizesById p.id with _ | es <;>
      simp only [hfs, hes] <;> (try simp) <;>
        (try (split_ifs <;> simp_all)) <;> (try omega)

/-- The classifier yields ok exactly on a resolved stat of a nonzero-size
file whose size matches any known positive expected size. -/
theorem classify_ok_iff (fs : String → FileState) (backupRoot : String)
    (p : Photo) (options : IncOptions) :
  classifyManifestPhoto fs backupRoot p options = IncClass.ok ↔
    ∃ n, fs (resolveMediaPath backupRoot p.id options) = FileState.present n ∧
      n ≠ 0 ∧ (∀ es, options.expectedSizesById p.id = some es →
        0 < es → n = es) := by
  unfold classifyManifestPhoto
  rcases hfs : fs (resolveMediaPath backupRoot p.id options) with _ | n | n <;>
    rcases hes : options.expectedSizesById p.id with _ | es <;>
      simp only [hfs, hes] <;> (try simp) <;>
        (try (split_ifs <;> simp_all)) <;> (try omega)

/-- Empty incremental options for the C3 theorems. -/
def optionsC3 : IncOptions :=
  { expectedSizesById := fun _ => none
    contentTypeById := fun _ => none
    filenameById := fun _ => none }

/-- The photo of the C3 manifest. -/
def photoC3 : Photo :=
  { id := "ok1", url_highres := "https://im.vsco.co/a.jpg", width := none,
    height := none, caption := none, source_gallery_id := none,
    downloaded_at := "2020" }

/-- A filesystem where the mapped file of photoC3 is on disk with nonzero
size 5 but stat rejects with a non-ENOENT error (permission denied on an
intact file). -/
def fsC3err : String → FileState := fun path =>
  if path = "root/.vsco-backup/media/ok1.jpg" then FileState.statFailed 5
  else FileState.absent

/-- C3 counterexample: a manifest photo whose local file exists with
nonzero size 5, with no expected size known (so neither the zero-size nor
the size-mismatch condition holds), is nevertheless classified invalid,
because the catch of incremental.ts lines 48-54 maps every non-ENOENT
stat failure to invalid; per the claim this entity had to be ok. -/
theorem incremental_classification_cex :
  fsC3err (resolveMediaPath "root" photoC3.id optionsC3) =
    FileState.statFailed 5 ∧
  optionsC3.expectedSizesById photoC3.id = none ∧
  (5 : Nat) ≠ 0 ∧
  classifyManifestPhoto fsC3err "root" photoC3 optionsC3 =
    IncClass.invalid ∧
  classifyManifestPhoto fsC3err "root" photoC3 optionsC3 ≠ IncClass.ok := by
  refine ⟨by decide, rfl, by decide, by decide, by decide⟩

/-- C3 (amended): the incremental diff classifies as the code does: a
discovered photo is queued as new exactly when its id is absent from the
manifest content; a manifest photo is missing exactly when stat on its
mapped local file rejects with ENOENT, invalid exactly when stat rejects
with any other error or the file exists with size zero or a size
differing from a known positive expected size, and ok otherwise; the
missing and invalid lists collect exactly those manifest photos, and an
ok manifest photo appears in none of the three queue sources. -/
theorem incremental_classification_amended (fs : String → FileState)
    (backupRoot : String) (discoveredPhotos : List Photo)
    (manifest : BackupManifest) (options : IncOptions) :
  (∀ p, p ∈ (detectIncrementalPhotos fs backupRoot discoveredPhotos manifest
        options).newItems ↔
     p ∈ discoveredPhotos ∧ p.id ∉ manifest.content.photos.map Photo.id) ∧
  (∀ p, classifyManifestPhoto fs backupRoot p options = IncClass.missing ↔
     fs (resolveMediaPath backupRoot p.id options) = FileState.absent) ∧
  (∀ p, classifyManifestPhoto fs backupRoot p options = IncClass.invalid ↔
     ((∃ n, fs (resolveMediaPath backupRoot p.id options) =
         FileState.statFailed n) ∨
      (∃ n, fs (resolveMediaPath backupRoot p.id options) =
         FileState.present n ∧
        (n = 0 ∨ ∃ es, options.expectedSizesById p.id = some es ∧
          0 < es ∧ n ≠ es)))) ∧
  (∀ p, classifyManifestPhoto fs backupRoot p options = IncClass.ok ↔
     ∃ n, fs (resolveMediaPath backupRoot p.id options) = FileState.present n ∧
       n ≠ 0 ∧ (∀ es, options.expectedSizesById p.id = some es →
         0 < es → n = es)) ∧
  (∀ p, p ∈ (detectIncrementalPhotos fs backupRoot discoveredPhotos manifest
        options).missingItems ↔
     p ∈ manifest.content.photos ∧
       classifyManifestPhoto fs backupRoot p options = IncClass.missing) ∧
  (∀ p, p ∈ (detectIncrementalPhotos fs backupRoot discoveredPhotos manifest
        options).invalidItems ↔
     p ∈ manifest.content.photos ∧
       classifyManifestPhoto fs backupRoot p options = IncClass.invalid) ∧
  (∀ p, p ∈ manifest.content.photos →
     classifyManifestPhoto fs backupRoot p options = IncClass.ok →
     p ∉ (detectIncrementalPhotos fs backupRoot discoveredPhotos manifest
        options).missingItems ∧
     p ∉ (detectIncrementalPhotos fs backupRoot discoveredPhotos manifest
        options).invalidItems ∧
     ∀ q ∈ (detectIncrementalPhotos fs backupRoot discoveredPhotos manifest
        options).newItems, q.id ≠ p.id) := by
  refine ⟨?_, fun p => classify_missing_iff fs backupRoot p options,
    fun p => classify_invalid_iff fs backupRoot p options,
    fun p => classify_ok_iff fs backupRoot p options, ?_, ?_, ?_⟩
  · intro p
    simp [detectIncrementalPhotos, List.mem_filter, List.elem_iff]
  · intro p
    simp [detectIncrementalPhotos, List.mem_filter]
  · intro p
    simp [detectIncrementalPhotos, List.mem_filter]
  · intro p hp hok
    refine ⟨?_, ?_, ?_⟩
    · simp only [detectIncrementalPhotos, List.mem_filter]
      rintro ⟨-, hcls⟩
      rw [decide_eq_true_eq, hok] at hcls
      exact IncClass.noConfusion hcls
    · simp only [detectIncrementalPhotos, List.mem_filter]
      rintro ⟨-, hcls⟩
      rw [decide_eq_true_eq, hok] at hcls
      exact IncClass.noConfusion hcls
    · intro q hq
      simp only [detectIncrementalPhotos, List.mem_filter] at hq
      intro hid
      have hmem : p.id ∈ manifest.content.photos.map Photo.id :=
        List.mem_map_of_mem Photo.id hp
      rw [← hid] at hmem
      have hq2 := hq.2
      simp only [Bool.not_eq_true'] at hq2
      have hcontains : (List.map Photo.id manifest.content.photos).contains q.id =
          true := by
        simpa [List.elem_iff] using hmem
      rw [hcontains] at hq2
      exact Bool.noConfusion hq2

/-- A one-photo manifest for the C3 witness. -/
def manifestC3 : BackupManifest :=
  { schemaVersion := "1.0.0"
    profile := { username := "u", profile_url := "https://vsco.co/u",
                 last_backup_ts := "2020", backup_version := "1.0.0" }
    content :=
      { photos := [photoC3]
        galleries := [], blog_posts := [] }
    backup_runs := [] }

/-- A filesystem holding a valid copy of the one manifest photo. -/
def fsC3 : String → FileState := fun path =>
  if path = "root/.vsco-backup/media/ok1.jpg" then FileState.present 5
  else FileState.absent

/-- C3 witness: at a concrete manifest whose photo has an intact local
file with a resolving stat, the photo is classified ok and appears in
none of the queue sources. -/
theorem incremental_classification_amended_witness :
  photoC3 ∉ (detectIncrementalPhotos fsC3 "root" [photoC3] manifestC3
    optionsC3).missingItems ∧
  photoC3 ∉ (detectIncrementalPhotos fsC3 "root" [photoC3] manifestC3
    optionsC3).invalidItems ∧
  ∀ q ∈ (detectIncrementalPhotos fsC3 "root" [photoC3] manifestC3
    optionsC3).newItems, q.id ≠ photoC3.id :=
  (incremental_classification_amended fsC3 "root" [photoC3] manifestC3
    optionsC3).2.2.2.2.2.2 photoC3 (by decide) (by decide)

/-- An error carrying a 4xx status whose message contains a timeout
marker. -/
def timeoutWith404 : JsErr :=
  { isError := true, message := "Request timeout", status := some 404,
    isSyntaxError := false }

/-- C5 counterexample: an error with HTTP status 404 (a 4xx other than
429) whose message contains a timeout marker is classified transient, and
the retry wrapper keeps retrying it until exhaustion instead of raising
immediately, so the claimed deterministic classification of every 4xx
(non-429) failure is false. -/
theorem retry_deterministic_claim_cex :
  (∃ s, timeoutWith404.status = some s ∧ 400 ≤ s ∧ s < 500 ∧ s ≠ 429) ∧
  isTransientError timeoutWith404 = true ∧
  retryRun (fun _ => AttemptOutcome.err (α := Unit) timeoutWith404) 2 =
    RetryOutcome.exhausted timeoutWith404 2 := by
  refine ⟨⟨404, rfl, by norm_num⟩, rfl, rfl⟩

/-- Running the retry loop from an attempt index no later than the first
non-transient failure raises that failure with its attempt count. -/
theorem retryLoop_failedFast {α : Type} (outcomes : Nat → AttemptOutcome α)
    (maxAttempts k : Nat) (e : JsErr)
    (htrans : ∀ i, i < k → ∃ ei, outcomes i = AttemptOutcome.err ei ∧
      isTransientError ei = true)
    (hk : k < maxAttempts)
    (hout : outcomes k = AttemptOutcome.err e)
    (hdet : isTransientError e = false) :
    ∀ fuel attempt, fuel + attempt = maxAttempts → attempt ≤ k →
      retryLoop outcomes maxAttempts fuel attempt =
        RetryOutcome.failedFast e (k + 1) := by
  intro fuel
  induction fuel with
  | zero =>
    intro attempt hsum hle
    omega
  | succ f ih =>
    intro attempt hsum hle
    have hlt : attempt < maxAttempts := by omega
    simp only [retryLoop, if_pos hlt]
    by_cases heq : attempt = k
    · subst heq
      rw [hout]
      simp [hdet]
    · have hltk : attempt < k := by omega
      obtain ⟨ei, hei, htr⟩ := htrans attempt hltk
      rw [hei]
      have hne : attempt ≠ maxAttempts - 1 := by omega
      simp only [htr, if_pos, if_neg hne, ite_true]
      exact ih (attempt + 1) (by omega) (by omega)

/-- Running the retry loop over transient failures only exhausts
maxAttempts and raises the last error with the full attempt count. -/
theorem retryLoop_exhaustedAll {α : Type} (outcomes : Nat → AttemptOutcome α)
    (maxAttempts : Nat) (e : JsErr)
    (htrans : ∀ i, i < maxAttempts → ∃ ei,
      outcomes i = AttemptOutcome.err ei ∧ isTransientError ei = true)
    (hlast : outcomes (maxAttempts - 1) = AttemptOutcome.err e)
    (hlastTrans : isTransientError e = true) :
    ∀ fuel attempt, fuel + attempt = maxAttempts → attempt < maxAttempts →
      retryLoop outcomes maxAttempts fuel attempt =
        RetryOutcome.exhausted e maxAttempts := by
  intro fuel
  induction fuel with
  | zero =>
    intro attempt hsum hlt
    omega
  | succ f ih =>
    intro attempt hsum hlt
    simp only [retryLoop, if_pos hlt]
    by_cases heq : attempt = maxAttempts - 1
    · rw [heq, hlast]
      simp [hlastTrans]
    · obtain ⟨ei, hei, htr⟩ := htrans attempt hlt
      rw [hei]
      simp only [htr, if_neg heq, ite_true]
      exact ih (attempt + 1) (by omega) (by omega)

/-- C5 (amended): classification precedence is message first — the wrapper
raises immediately exactly when the failure has no timeout/connection-reset
message marker and either carries a 4xx status other than 429 or is a
syntax error whose status (if any) is not decisive; a failure preceded by
transient failures and classified non-transient is raised with its attempt
count after exactly that attempt; exhausting maxAttempts transient
failures raises the last error with the attempt count; and each
inter-attempt delay is min(baseDelay * 2^attempt, maxDelay) plus jitter in
[0, jitterMax), with the capped part non-decreasing across attempts. -/
theorem retry_policy_amended :
  (∀ e : JsErr, isTransientError e = false ↔
     (hasTransientMarker e = false ∧
       ((∃ s, e.status = some s ∧ 400 ≤ s ∧ s < 500 ∧ s ≠ 429) ∨
        (e.isSyntaxError = true ∧
          ∀ s, e.status = some s → s < 400 ∨ 600 ≤ s)))) ∧
  (∀ (α : Type) (outcomes : Nat → AttemptOutcome α) (maxAttempts k : Nat)
     (e : JsErr),
     (∀ i, i < k → ∃ ei, outcomes i = AttemptOutcome.err ei ∧
       isTransientError ei = true) →
     k < maxAttempts →
     outcomes k = AttemptOutcome.err e →
     isTransientError e = false →
     retryRun outcomes maxAttempts = RetryOutcome.failedFast e (k + 1)) ∧
  (∀ (α : Type) (outcomes : Nat → AttemptOutcome α) (maxAttempts : Nat)
     (e : JsErr),
     1 ≤ maxAttempts →
     (∀ i, i < maxAttempts → ∃ ei, outcomes i = AttemptOutcome.err ei ∧
       isTransientError ei = true) →
     outcomes (maxAttempts - 1) = AttemptOutcome.err e →
     isTransientError e = true →
     retryRun outcomes maxAttempts = RetryOutcome.exhausted e maxAttempts) ∧
  (∀ (attempt : Nat) (base maxD j jmax : ℚ), 0 ≤ base → 0 ≤ j → j < jmax →
     calculateDelay attempt base maxD j = cappedDelay attempt base maxD + j ∧
     cappedDelay attempt base maxD ≤ calculateDelay attempt base maxD j ∧
     calculateDelay attempt base maxD j < cappedDelay attempt base maxD + jmax ∧
     cappedDelay attempt base maxD ≤ cappedDelay (attempt + 1) base maxD) := by
  refine ⟨?_, ?_, ?_, ?_⟩
  · intro e
    unfold isTransientError
    by_cases hm : hasTransientMarker e
    · simp [hm]
    · simp only [hm, Bool.false_eq_true, if_false]
      rcases hs : e.status with _ | s
      · cases hsyn : e.isSyntaxError <;> simp [hsyn]
      · cases hsyn : e.isSyntaxError <;>
          split_ifs <;> simp_all <;> omega
  · intro α outcomes maxAttempts k e htrans hk hout hdet
    exact retryLoop_failedFast outcomes maxAttempts k e htrans hk hout hdet
      maxAttempts 0 (by omega) (by omega)
  · intro α outcomes maxAttempts e hmax htrans hlast htr
    exact retryLoop_exhaustedAll outcomes maxAttempts e htrans hlast htr
      maxAttempts 0 (by omega) (by omega)
  · intro attempt base maxD j jmax hbase hj hjlt
    refine ⟨rfl, ?_, ?_, ?_⟩
    · exact le_add_of_nonneg_right hj
    · exact add_lt_add_left hjlt _
    · unfold cappedDelay
      refine min_le_min ?_ le_rfl
      have h2 : (2 : ℚ) ^ attempt ≤ 2 ^ (attempt + 1) :=
        pow_le_pow_right (by norm_num) (Nat.le_succ attempt)
      exact mul_le_mul_of_nonneg_left h2 hbase

/-- A deterministic 404 error without a transient message marker. -/
def plain404 : JsErr :=
  { isError := true, message := "HTTP 404: Not Found", status := some 404,
    isSyntaxError := false }

/-- A transient 503 error. -/
def plain503 : JsErr :=
  { isError := true, message := "HTTP 503: Service Unavailable",
    status := some 503, isSyntaxError := false }

/-- C5 witness: the amended policy applied at concrete errors, attempt
streams and delay parameters. -/
theorem retry_policy_amended_witness :
  isTransientError plain404 = false ∧
  retryRun (fun _ => AttemptOutcome.err (α := Unit) plain404) 5 =
    RetryOutcome.failedFast plain404 1 ∧
  retryRun (fun _ => AttemptOutcome.err (α := Unit) plain503) 3 =
    RetryOutcome.exhausted plain503 3 ∧
  calculateDelay 0 1000 30000 500 = cappedDelay 0 1000 30000 + 500 ∧
  cappedDelay 0 1000 30000 ≤ cappedDelay 1 1000 30000 := by
  refine ⟨?_, ?_, ?_, ?_, ?_⟩
  · exact (retry_policy_amended.1 plain404).mpr
      ⟨by decide, Or.inl ⟨404, rfl, by norm_num⟩⟩
  · exact retry_policy_amended.2.1 Unit
      (fun _ => AttemptOutcome.err plain404) 5 0 plain404
      (fun i hi => absurd hi (Nat.not_lt_zero i)) (by norm_num) rfl (by decide)
  · exact retry_policy_amended.2.2.1 Unit
      (fun _ => AttemptOutcome.err plain503) 3 plain503 (by norm_num)
      (fun i _ => ⟨plain503, rfl, by decide⟩) rfl (by decide)
  · exact (retry_policy_amended.2.2.2 0 1000 30000 500 1000 (by norm_num)
      (by norm_num) (by norm_num)).1
  · exact (retry_policy_amended.2.2.2 0 1000 30000 500 1000 (by norm_num)
      (by norm_num) (by norm_num)).2.2.2

/-- The head of a stable comparator insertion is decided by one comparison
against the previous head. -/
theorem head_orderedInsertCmp {α : Type} (cmp : α → α → Int) (a : α)
    (s : List α) :
    (orderedInsertCmp cmp a s).head? =
      match s.head? with
      | none => some a
      | some b => if cmp a b ≤ 0 then some a else some b := by
  cases s with
  | nil => rfl
  | cons b l =>
    simp only [orderedInsertCmp]
    split_ifs with h <;> simp [h]

/-- The head of the stable comparator sort is the bestOf fold. -/
theorem sortCmp_head_eq_bestOf {α : Type} (cmp : α → α → Int) (l : List α) :
    (sortCmp cmp l).head? = bestOf cmp l := by
  induction l with
  | nil => rfl
  | cons a l ih =>
    simp only [sortCmp, bestOf, head_orderedInsertCmp, ih]

/-- bestOf returns an element of the list. -/
theorem bestOf_mem {α : Type} (cmp : α → α → Int) (l : List α) (b : α)
    (h : bestOf cmp l = some b) : b ∈ l := by
  induction l with
  | nil => simp [bestOf] at h
  | cons a l ih =>
    simp only [bestOf] at h
    cases hb : bestOf cmp l with
    | none =>
      rw [hb] at h
      simp only [Option.some.injEq] at h
      subst h
      exact List.mem_cons_self a l
    | some c =>
      rw [hb] at h
      by_cases hc : cmp a c ≤ 0
      · simp only [if_pos hc, Option.some.injEq] at h
        subst h
        exact List.mem_cons_self a l
      · simp only [if_neg hc, Option.some.injEq] at h
        subst h
        exact List.mem_cons_of_mem a (ih hb)

/-- bestOf yields a value on every nonempty list. -/
theorem bestOf_isSome {α : Type} (cmp : α → α → Int) (a : α) (l : List α) :
    ∃ b, bestOf cmp (a :: l) = some b := by
  simp only [bestOf]
  cases bestOf cmp l with
  | none => exact ⟨a, rfl⟩
  | some c =>
    by_cases h : cmp a c ≤ 0
    · exact ⟨a, by simp [h]⟩
    · exact ⟨c, by simp [h]⟩

/-- When maxWidth is none, no candidate carries a width. -/
theorem maxWidth_none_all (l : List ImageCandidate)
    (h : maxWidth l = none) : ∀ c ∈ l, c.width = none := by
  induction l with
  | nil => intro c hc; cases hc
  | cons a l ih =>
    intro c hc
    simp only [maxWidth] at h
    rcases hw : a.width with _ | w
    · rw [hw] at h
      rcases List.mem_cons.mp hc with hceq | hc2
      · rw [hceq]; exact hw
      · exact ih h c hc2
    · rw [hw] at h
      cases hm : maxWidth l <;> rw [hm] at h <;> cases h

/-- The maximum width is attained by some candidate. -/
theorem maxWidth_attained :
    ∀ (l : List ImageCandidate) (W : Int), maxWidth l = some W →
      ∃ c ∈ l, c.width = some W := by
  intro l
  induction l with
  | nil => intro W h; simp [maxWidth] at h
  | cons a l ih =>
    intro W h
    simp only [maxWidth] at h
    rcases hw : a.width with _ | w
    · rw [hw] at h
      obtain ⟨c, hc, hcw⟩ := ih W h
      exact ⟨c, List.mem_cons_of_mem a hc, hcw⟩
    · rw [hw] at h
      cases hm : maxWidth l with
      | none =>
        rw [hm] at h
        simp only [Option.some.injEq] at h
        exact ⟨a, List.mem_cons_self a l, by rw [hw, h]⟩
      | some m =>
        rw [hm] at h
        simp only [Option.some.injEq] at h
        by_cases hle : m ≤ w
        · refine ⟨a, List.mem_cons_self a l, ?_⟩
          rw [hw, ← h]
          congr 1
          omega
        · obtain ⟨c, hc, hcw⟩ := ih m hm
          refine ⟨c, List.mem_cons_of_mem a hc, ?_⟩
          rw [hcw, ← h]
          congr 1
          omega

/-- The stable-sort best element is the first candidate attaining the
maximum width, whenever some candidate carries a width. -/
theorem bestOf_eq_find_maxWidth :
    ∀ (l : List ImageCandidate) (W : Int), maxWidth l = some W →
      bestOf cmpCandidate l =
        l.find? (fun c => decide (c.width = some W)) := by
  intro l
  induction l with
  | nil => intro W h; simp [maxWidth] at h
  | cons a l ih =>
    intro W h
    simp only [maxWidth] at h
    rcases hw : a.width with _ | w
    · -- the head has no width: the best and the first match come from the
      -- tail, and the head loses the comparison against any width bearer
      rw [hw] at h
      have hfa : (fun c => decide (c.width = some W)) a = false := by
        simp [hw]
      obtain ⟨b, hb⟩ : ∃ b, l.find? (fun c => decide (c.width = some W)) =
          some b := by
        rw [← Option.isSome_iff_exists, List.find?_isSome]
        obtain ⟨c, hc, hcw⟩ := maxWidth_attained l W h
        exact ⟨c, hc, by simp [hcw]⟩
      have hbw : b.width = some W := by
        have := List.find?_some hb
        simpa using this
      rw [List.find?_cons_of_neg l (by simp [hw]), hb]
      simp only [bestOf, ih W h, hb]
      have hcmp : cmpCandidate a b = 1 := by
        unfold cmpCandidate
        rw [hw, hbw]
      show (if cmpCandidate a b ≤ 0 then some a else some b) = some b
      rw [hcmp]
      norm_num
    · rw [hw] at h
      cases hm : maxWidth l with
      | none =>
        rw [hm] at h
        simp only [Option.some.injEq] at h
        subst h
        rw [List.find?_cons_of_pos l (by simp [hw])]
        simp only [bestOf]
        cases hb : bestOf cmpCandidate l with
        | none => rfl
        | some b =>
          have hbw : b.width = none :=
            maxWidth_none_all l hm b (bestOf_mem cmpCandidate l b hb)
          have hcmp : cmpCandidate a b = -1 := by
            unfold cmpCandidate
            rw [hw, hbw]
          show (if cmpCandidate a b ≤ 0 then some a else some b) = some a
          rw [hcmp]
          norm_num
      | some m =>
        rw [hm] at h
        simp only [Option.some.injEq] at h
        obtain ⟨b, hb⟩ : ∃ b,
            l.find? (fun c => decide (c.width = some m)) = some b := by
          rw [← Option.isSome_iff_exists, List.find?_isSome]
          obtain ⟨c, hc, hcw⟩ := maxWidth_attained l m hm
          exact ⟨c, hc, by simp [hcw]⟩
        have hbw : b.width = some m := by
          have := List.find?_some hb
          simpa using this
        have hbo : bestOf cmpCandidate l = some b := by rw [ih m hm, hb]
        by_cases hle : m ≤ w
        · -- the head attains the maximum
          have hW : W = w := by omega
          subst hW
          rw [List.find?_cons_of_pos l (by simp [hw])]
          simp only [bestOf, hbo]
          have hcmp : cmpCandidate a b = m - W := by
            unfold cmpCandidate
            rw [hw, hbw]
          show (if cmpCandidate a b ≤ 0 then some a else some b) = some a
          rw [hcmp]
          have hle0 : m - W ≤ 0 := by omega
          simp [hle0]
        · -- the maximum sits in the tail
          have hW : W = m := by omega
          subst hW
          rw [List.find?_cons_of_neg l (by simp [hw]; omega), hb]
          simp only [bestOf, hbo]
          have hcmp : cmpCandidate a b = W - w := by
            unfold cmpCandidate
            rw [hw, hbw]
          show (if cmpCandidate a b ≤ 0 then some a else some b) = some b
          rw [hcmp]
          have hgt0 : ¬(W - w ≤ 0) := by omega
          simp [hgt0]

/-- Every width in the list is bounded by the maximum width. -/
theorem maxWidth_ge :
    ∀ (l : List ImageCandidate) (W : Int), maxWidth l = some W →
      ∀ c ∈ l, ∀ w, c.width = some w → w ≤ W := by
  intro l
  induction l with
  | nil => intro W h; simp [maxWidth] at h
  | cons a l ih =>
    intro W h c hc w hcw
    simp only [maxWidth] at h
    rcases hw : a.width with _ | v
    · rw [hw] at h
      rcases List.mem_cons.mp hc with hceq | hc2
      · rw [hceq, hw] at hcw
        cases hcw
      · exact ih W h c hc2 w hcw
    · rw [hw] at h
      cases hm : maxWidth l with
      | none =>
        rw [hm] at h
        simp only [Option.some.injEq] at h
        rcases List.mem_cons.mp hc with hceq | hc2
        · rw [hceq, hw] at hcw
          simp only [Option.some.injEq] at hcw
          omega
        · rw [maxWidth_none_all l hm c hc2] at hcw
          cases hcw
      | some m =>
        rw [hm] at h
        simp only [Option.some.injEq] at h
        rcases List.mem_cons.mp hc with hceq | hc2
        · rw [hceq, hw] at hcw
          simp only [Option.some.injEq] at hcw
          omega
        · have := ih m hm c hc2 w hcw
          omega

/-- The two width-tied candidates of the C6 counterexample. -/
def candA : ImageCandidate := { url := "u1", width := some 100, height := some 50 }

/-- The greater-height member of the tied pair. -/
def candB : ImageCandidate := { url := "u2", width := some 100, height := some 200 }

/-- C6 counterexample: on two candidates tied at width 100 with heights 50
and 200, selectHighestResolution returns the first (height 50), not the
greater-height one: the comparator returns 0 whenever both widths are
present and equal, so height never breaks a width tie. -/
theorem select_height_tiebreak_cex :
  selectHighestResolution [candA, candB] = some candA ∧
  candA.width = candB.width ∧
  candA.height = some 50 ∧
  candB.height = some 200 ∧
  candA ≠ candB := by
  refine ⟨rfl, rfl, rfl, rfl, by decide⟩

/-- C6 (amended): an empty candidate list yields no selection; whenever
some candidate carries a numeric width, the selection is the first
candidate attaining the maximum width (so it is a maximum-width entry, but
ties on width keep list order; height and URL length only order candidates
when both compared entries lack a width, resp. lack width and height). -/
theorem select_highest_resolution_amended :
  selectHighestResolution [] = none ∧
  (∀ (l : List ImageCandidate) (W : Int), maxWidth l = some W →
     selectHighestResolution l =
       l.find? (fun c => decide (c.width = some W))) ∧
  (∀ (l : List ImageCandidate) (W : Int), maxWidth l = some W →
     ∃ c, selectHighestResolution l = some c ∧ c ∈ l ∧ c.width = some W ∧
       ∀ d ∈ l, ∀ w, d.width = some w → w ≤ W) := by
  have hfind : ∀ (l : List ImageCandidate) (W : Int), maxWidth l = some W →
      selectHighestResolution l =
        l.find? (fun c => decide (c.width = some W)) := by
    intro l W h
    have hne : l ≠ [] := by
      rintro rfl
      simp [maxWidth] at h
    unfold selectHighestResolution
    rw [if_neg (by simpa [List.isEmpty_iff] using hne)]
    rw [sortCmp_head_eq_bestOf, bestOf_eq_find_maxWidth l W h]
  refine ⟨rfl, hfind, ?_⟩
  intro l W h
  obtain ⟨b, hb⟩ : ∃ b,
      l.find? (fun c => decide (c.width = some W)) = some b := by
    rw [← Option.isSome_iff_exists, List.find?_isSome]
    obtain ⟨c, hc, hcw⟩ := maxWidth_attained l W h
    exact ⟨c, hc, by simp [hcw]⟩
  refine ⟨b, by rw [hfind l W h, hb], List.mem_of_find?_eq_some hb, ?_,
    maxWidth_ge l W h⟩
  have := List.find?_some hb
  simpa using this

/-- A candidate list with a unique maximum width for the C6 witness. -/
def widthListC6 : List ImageCandidate :=
  [{ url := "a", width := none, height := none },
   { url := "b", width := some 480, height := none },
   { url := "c", width := some 1536, height := some 1024 }]

/-- C6 witness: the amended selection rule applied at a concrete list:
the maximum width 1536 is attained and its first bearer is selected. -/
theorem select_highest_resolution_amended_witness :
  selectHighestResolution widthListC6 =
    widthListC6.find? (fun c => decide (c.width = some (1536 : Int))) ∧
  selectHighestResolution widthListC6 =
    some { url := "c", width := some 1536, height := some 1024 } := by
  constructor
  · exact select_highest_resolution_amended.2.1 widthListC6 1536 (by decide)
  · rw [select_highest_resolution_amended.2.1 widthListC6 1536 (by decide)]
    rfl

/-- One loop body always advances the cycle counter. -/
theorem scrollStep_cycle (extract : Nat → List String) (s : ScrollState) :
    (scrollStep extract s).currentCycle = s.currentCycle + 1 := by
  unfold scrollStep
  dsimp only
  split_ifs <;> rfl

/-- After n loop bodies the cycle counter is n. -/
theorem scrollIterate_cycle (extract : Nat → List String) (n : Nat) :
    (scrollIterate extract n).currentCycle = n := by
  induction n with
  | zero => rfl
  | succ n ih => rw [scrollIterate, scrollStep_cycle, ih]

/-- C9: the scroll loop always terminates and stops exactly at the first
state violating the while condition: for every id stream there is an
iteration count n bounded by the hard cycle cap such that the loop runs
exactly n bodies, the condition fails at n and held before; failing the
condition means the cycle cap, the consecutive no-new-content threshold,
or the optional maximum item count has been reached; and the unset
defaults resolve to threshold 3 and cap 50. -/
theorem scroll_loop_terminates_and_stops (o : ScrollOpts)
    (extract : Nat → List String) :
  (∀ s, scrollCond o s = false ↔
     (o.maxScrollCycles ≤ s.currentCycle ∨
      o.noNewContentThreshold ≤ s.cyclesWithoutNewContent ∨
      ∃ m, o.maxItems = some m ∧ m ≤ s.totalIds.length)) ∧
  (∀ mi, resolveScrollOpts
      { noNewContentThreshold := none, maxScrollCycles := none,
        maxItems := mi } =
      { noNewContentThreshold := 3, maxScrollCycles := 50, maxItems := mi }) ∧
  (∃ n, n ≤ o.maxScrollCycles ∧
     discoverScrollState o extract = scrollIterate extract n ∧
     scrollCond o (scrollIterate extract n) = false ∧
     ∀ m, m < n → scrollCond o (scrollIterate extract m) = true) := by
  refine ⟨?_, fun mi => rfl, ?_⟩
  · intro s
    cases hmi : o.maxItems <;>
      simp [scrollCond, hmi, Bool.and_eq_false_iff, decide_eq_false_iff_not,
        Nat.not_lt] <;> omega
  · have hcap : scrollCond o (scrollIterate extract o.maxScrollCycles) = false := by
      unfold scrollCond
      rw [scrollIterate_cycle]
      simp
    have hex : ∃ n, scrollCond o (scrollIterate extract n) = false :=
      ⟨o.maxScrollCycles, hcap⟩
    refine ⟨Nat.find hex, Nat.find_min' hex hcap, ?_, Nat.find_spec hex, ?_⟩
    · have hreach : ∀ fuel k, k ≤ Nat.find hex → Nat.find hex ≤ k + fuel →
          scrollLoop o extract fuel (scrollIterate extract k) =
            scrollIterate extract (Nat.find hex) := by
        intro fuel
        induction fuel with
        | zero =>
          intro k hk1 hk2
          have : k = Nat.find hex := by omega
          rw [this]
          rfl
        | succ f ih =>
          intro k hk1 hk2
          by_cases hk : k = Nat.find hex
          · rw [hk]
            unfold scrollLoop
            rw [Nat.find_spec hex]
            rfl
          · have hklt : k < Nat.find hex := by omega
            have hcondk : scrollCond o (scrollIterate extract k) = true := by
              have := Nat.find_min hex hklt
              exact Bool.eq_true_of_ne_false this
            unfold scrollLoop
            rw [hcondk]
            simp only [if_true]
            have hsucc : scrollStep extract (scrollIterate extract k) =
                scrollIterate extract (k + 1) := rfl
            rw [hsucc]
            exact ih (k + 1) (by omega) (by omega)
      have h0 : scrollIterate extract 0 = initScrollState := rfl
      have := hreach o.maxScrollCycles 0 (Nat.zero_le _)
        (by have := Nat.find_min' hex hcap; omega)
      rw [h0] at this
      exact this
    · intro m hm
      have := Nat.find_min hex hm
      exact Bool.eq_true_of_ne_false this

/-- C9 witness: with a maximum item count of zero the loop stops before
its first body even against a stream that always contributes new ids. -/
theorem scroll_loop_terminates_and_stops_witness :
  discoverScrollState
      { noNewContentThreshold := 3, maxScrollCycles := 50,
        maxItems := some 0 } (fun _ => ["x"]) = initScrollState := by
  obtain ⟨n, -, heq, -, hmin⟩ :=
    (scroll_loop_terminates_and_stops
      { noNewContentThreshold := 3, maxScrollCycles := 50,
        maxItems := some 0 } (fun _ => ["x"])).2.2
  have hn : n = 0 := by
    rcases Nat.eq_zero_or_pos n with h0 | hpos
    · exact h0
    · exfalso
      have h1 := hmin 0 hpos
      have h2 : scrollCond
          { noNewContentThreshold := 3, maxScrollCycles := 50,
            maxItems := some 0 }
          (scrollIterate (fun _ => ["x"]) 0) = false := by decide
      rw [h1] at h2
      exact Bool.noConfusion h2
  rw [hn] at heq
  exact heq
